import Mathlib

/-!
Verification of the MPU6050 shared-memory telemetry pipeline
(`server_for_mpu6050/c_server`): the producer ring buffer and running
average from `producer.c` with the `shared_data_t` layout of `producer.h`,
and the server-side cache, reader thread, admission control, configuration
reload and request routing from the concurrent server sources.

Machine floats are modelled as exact rationals, machine ints as `Int`,
sizes and counters as `Nat`.  Mutex-protected regions are modelled as
atomic steps, so cross-thread observations see a sequence of whole states.
-/

/-- BUFFER_SIZE from producer.h: ring-buffer capacity. -/
@[reducible] def BUFFER_SIZE : Nat := 16

/-- REFRESH_MS from producer.h: the producer/reader period in milliseconds. -/
def REFRESH_MS : Nat := 100

/-- mpu6050_sample_float_t: six motion axes plus temperature, floats
modelled as rationals. -/
structure mpu6050_sample_float_t where
  ax : ℚ
  ay : ℚ
  az : ℚ
  gx : ℚ
  gy : ℚ
  gz : ℚ
  temp : ℚ
deriving DecidableEq, Repr

/-- The all-zero sample, the value of a zero-initialized struct. -/
def zero_sample : mpu6050_sample_float_t := ⟨0, 0, 0, 0, 0, 0, 0⟩

/-- Componentwise sum of two samples, as in the accumulation loop of
producer.c lines 143-152. -/
def sample_add (a b : mpu6050_sample_float_t) : mpu6050_sample_float_t :=
  ⟨a.ax + b.ax, a.ay + b.ay, a.az + b.az,
   a.gx + b.gx, a.gy + b.gy, a.gz + b.gz, a.temp + b.temp⟩

/-- Componentwise division of a sample by a count, as in producer.c
lines 155-161. -/
def sample_div (a : mpu6050_sample_float_t) (n : Nat) : mpu6050_sample_float_t :=
  ⟨a.ax / n, a.ay / n, a.az / n, a.gx / n, a.gy / n, a.gz / n, a.temp / n⟩

/-- shared_data_t from producer.h: the ring buffer of BUFFER_SIZE samples,
the derived average, the saturating count and the write cursor.  The
buffer is a list that always has length BUFFER_SIZE. -/
structure shared_data_t where
  buffer : List mpu6050_sample_float_t
  average : mpu6050_sample_float_t
  count : Nat
  write_index : Nat
deriving DecidableEq, Repr

/-- The zero-initialized shared segment (producer.c line 50 memsets the
whole struct to 0). -/
def init_shared_data : shared_data_t :=
  ⟨List.replicate BUFFER_SIZE zero_sample, zero_sample, 0, 0⟩

/-- The average recomputation of producer.c lines 142-162: sum the first
count entries of the buffer componentwise, then divide by count when
count is positive. -/
def buffer_average (buf : List mpu6050_sample_float_t) (count : Nat) :
    mpu6050_sample_float_t :=
  let s := (buf.take count).foldl sample_add zero_sample
  if 0 < count then sample_div s count else s

/-- One producer write (producer.c lines 135-163): store the sample at the
write cursor, advance the cursor modulo BUFFER_SIZE, saturate the count at
BUFFER_SIZE, then recompute the average over the first count entries of
the updated buffer. -/
def producer_write (st : shared_data_t) (s : mpu6050_sample_float_t) :
    shared_data_t :=
  let buffer1 := st.buffer.set st.write_index s
  let write_index1 := (st.write_index + 1) % BUFFER_SIZE
  let count1 := if st.count < BUFFER_SIZE then st.count + 1 else st.count
  { buffer := buffer1
    average := buffer_average buffer1 count1
    count := count1
    write_index := write_index1 }

/-- The shared segment after a sequence of producer writes, starting from
the zero-initialized segment. -/
def producer_run (l : List mpu6050_sample_float_t) : shared_data_t :=
  l.foldl producer_write init_shared_data

/-- Spec-side definition (spec section 3, "component-wise mean over the
count currently valid entries"): the componentwise arithmetic mean of a
list of samples. -/
def sample_mean (l : List mpu6050_sample_float_t) : mpu6050_sample_float_t :=
  ⟨(l.map (·.ax)).sum / l.length,
   (l.map (·.ay)).sum / l.length,
   (l.map (·.az)).sum / l.length,
   (l.map (·.gx)).sum / l.length,
   (l.map (·.gy)).sum / l.length,
   (l.map (·.gz)).sum / l.length,
   (l.map (·.temp)).sum / l.length⟩

/-- cached_data_t from the concurrent server: latest sample, latest
average and the version counter (the mutex and condition variable are
modelled by treating each locked region as one atomic step). -/
structure cached_data_t where
  current_sample : mpu6050_sample_float_t
  average : mpu6050_sample_float_t
  version : Nat
deriving DecidableEq, Repr

/-- g_cached_data static initializer: version 0, and the sample and
average fields zero-initialized as C statics. -/
def init_cached_data : cached_data_t := ⟨zero_sample, zero_sample, 0⟩

/-- One cache publication by the reader thread (its locked region):
store the copied sample and average and increment the version, in one
atomic step. -/
def cache_publish (c : cached_data_t)
    (p : mpu6050_sample_float_t × mpu6050_sample_float_t) : cached_data_t :=
  ⟨p.1, p.2, c.version + 1⟩

/-- The cache after a sequence of reader-thread publications, starting
from the static initializer. -/
def cache_after (pubs : List (mpu6050_sample_float_t × mpu6050_sample_float_t)) :
    cached_data_t :=
  pubs.foldl cache_publish init_cached_data

/-- The value the reader thread copies as the average: the source reads
the last ring-buffer slot, buffer[BUFFER_SIZE - 1], not the average
field of the shared segment. -/
def reader_copied_average (sh : shared_data_t) : mpu6050_sample_float_t :=
  sh.buffer.getD (BUFFER_SIZE - 1) zero_sample

/-- One iteration of data_reader_thread.  The cur argument models the
value of the current_sample field the source reads from the shared
segment; that field is absent from the shared_data_t of producer.h, so
its value is taken as a parameter (spec section 4.3 describes it as the
latest sample).  When the segment and semaphore are attached the
iteration copies the pair out under the semaphore and publishes it with
a version increment; otherwise the cache is untouched. -/
def data_reader_iteration (attached : Bool) (cur : mpu6050_sample_float_t)
    (sh : shared_data_t) (c : cached_data_t) : cached_data_t :=
  if attached then cache_publish c (cur, reader_copied_average sh) else c

/-- get_cached_data: copy the pair out of the cache under its mutex. -/
def get_cached_data (c : cached_data_t) :
    mpu6050_sample_float_t × mpu6050_sample_float_t :=
  (c.current_sample, c.average)

/-- wait_for_new_data: after its condition-wait loop exits (version
advanced, timeout, or stop flag), it reads the version and the pair in
the same locked region and returns them; c is the cache state at that
moment. -/
def wait_for_new_data (c : cached_data_t) :
    Nat × (mpu6050_sample_float_t × mpu6050_sample_float_t) :=
  (c.version, (c.current_sample, c.average))

/-- server_config_t: max connections, backlog and port, machine ints. -/
structure server_config_t where
  max_connnections : Int
  backlog : Int
  port : Int
deriving DecidableEq, Repr

/-- DEFAULT_SERVER_CONFIG from the concurrent server. -/
def DEFAULT_SERVER_CONFIG : server_config_t := ⟨10, 5, 3737⟩

/-- The result of the three fscanf conversions of read_config_from_file,
in file order: each field is some value when the corresponding
key=value line matches and converts, none when that fscanf fails (a
failed fscanf assigns nothing). -/
structure config_scan where
  l1 : Option Int
  l2 : Option Int
  l3 : Option Int
deriving DecidableEq, Repr

/-- read_config_from_file: none models fopen failure (return -1, nothing
written); otherwise the three fscanf calls run in order, each writing
its field of the config in place on success, and the function returns
-2 at the first failure, leaving earlier fields overwritten. -/
def read_config_from_file (file : Option config_scan)
    (cfg : server_config_t) : Int × server_config_t :=
  match file with
  | none => (-1, cfg)
  | some s =>
    match s.l1 with
    | none => (-2, cfg)
    | some v1 =>
      let cfg1 := { cfg with max_connnections := v1 }
      match s.l2 with
      | none => (-2, cfg1)
      | some v2 =>
        let cfg2 := { cfg1 with backlog := v2 }
        match s.l3 with
        | none => (-2, cfg2)
        | some v3 => (0, { cfg2 with port := v3 })

/-- The admission check of the accept loop: reject when a positive limit
is already reached, reject when the limit is zero, admit otherwise
(a negative limit admits unconditionally, as in the source). -/
def accept_decision (cfg : server_config_t) (active : Nat) : Bool :=
  if 0 < cfg.max_connnections ∧ cfg.max_connnections ≤ (active : Int) then false
  else if cfg.max_connnections = 0 then false
  else true

/-- Events of the acceptor and handler threads that touch the
active-connections counter: an accepted socket (with the success of
pthread_create recorded) and a handler-thread exit. -/
inductive server_event where
  | accept (createOk : Bool)
  | handler_exit
deriving DecidableEq, Repr

/-- Effect of one event on the active-connections counter.  An admitted
accept reserves a slot before spawning; when pthread_create fails the
reserved slot is released again in the same step, so the counter is
unchanged.  Every handler exit releases its slot exactly once through
the cleanup handler. -/
def acceptor_step (cfg : server_config_t) (active : Nat) :
    server_event → Nat
  | .accept createOk =>
    if accept_decision cfg active then
      if createOk then active + 1 else active
    else active
  | .handler_exit => active - 1

/-- The active-connections counter after a sequence of events, starting
from zero. -/
def server_run (cfg : server_config_t) (evs : List server_event) : Nat :=
  evs.foldl (acceptor_step cfg) 0

/-- The named OS objects and the producer handles to them: whether the
shared-memory object and the named semaphore exist, and whether the
producer still holds its semaphore handle, its mapping and its file
descriptor. -/
structure os_state where
  shm_exists : Bool
  sem_exists : Bool
  sem_handle_open : Bool
  shm_mapped : Bool
  shm_fd_open : Bool
deriving DecidableEq, Repr

/-- Teardown calls available to the producer process. -/
inductive os_op where
  | sem_close
  | munmap
  | close_fd
  | shm_unlink
  | sem_unlink
deriving DecidableEq, Repr

/-- Effect of each teardown call: the close/unmap calls release handles
only; only the unlink calls remove the named objects. -/
def apply_os_op (st : os_state) : os_op → os_state
  | .sem_close => { st with sem_handle_open := false }
  | .munmap => { st with shm_mapped := false }
  | .close_fd => { st with shm_fd_open := false }
  | .shm_unlink => { st with shm_exists := false }
  | .sem_unlink => { st with sem_exists := false }

/-- The teardown sequence the producer runs on shutdown, producer.c
lines 177-179: sem_close, munmap, close, and nothing else. -/
def producer_shutdown_ops : List os_op := [.sem_close, .munmap, .close_fd]

/-- The OS-object state after the producer shutdown sequence. -/
def producer_shutdown (st : os_state) : os_state :=
  producer_shutdown_ops.foldl apply_os_op st

/-- Whitespace in the sense of the C sscanf %s conversion. -/
def is_c_space (c : Char) : Bool :=
  c = ' ' ∨ c = '\t' ∨ c = '\n' ∨ c = '\r' ∨ c = '\x0b' ∨ c = '\x0c'

/-- Take up to width leading non-whitespace characters, together with the
rest of the input, as the %Ns conversion does after skipping
whitespace. -/
def take_token : Nat → List Char → List Char × List Char
  | _, [] => ([], [])
  | 0, cs => ([], cs)
  | w + 1, c :: rest =>
    if is_c_space c then ([], c :: rest)
    else
      let p := take_token w rest
      (c :: p.1, p.2)

/-- One %Ns conversion: skip whitespace, then read a nonempty run of
non-whitespace characters of length at most width; fail when the input
is exhausted first. -/
def scan_token (width : Nat) (cs : List Char) :
    Option (List Char × List Char) :=
  let cs1 := cs.dropWhile is_c_space
  match take_token width cs1 with
  | ([], _) => none
  | (c :: t, r) => some (c :: t, r)

/-- The request-line parse of the connection handler:
sscanf(request, "%15s %255s %15s", method, path, version), succeeding
only when all three conversions succeed. -/
def sscanf3 (request : String) : Option (String × String × String) :=
  match scan_token 15 request.data with
  | none => none
  | some (m, r1) =>
    match scan_token 255 r1 with
    | none => none
    | some (p, r2) =>
      match scan_token 15 r2 with
      | none => none
      | some (v, _) => some (String.mk m, String.mk p, String.mk v)

/-- The structured responses of the connection handler: the SSE-bootstrap
HTML page, the JSON snapshot carrying the cached sample and average
with status ok, the event-stream mode, and the 404 page. -/
inductive http_response where
  | ok_html
  | ok_json (sample average : mpu6050_sample_float_t)
  | sse_stream
  | not_found
deriving DecidableEq, Repr

/-- The HTTP status code of each response mode. -/
def status_code : http_response → Nat
  | .not_found => 404
  | _ => 200

/-- The routing chain of the connection handler: exact string comparison
of the path against /, /json and /events, in that order, anything else
being 404; the JSON snapshot carries the pair read by get_cached_data. -/
def route_response (path : String) (c : cached_data_t) : http_response :=
  if path = "/" then .ok_html
  else if path = "/json" then
    .ok_json (get_cached_data c).1 (get_cached_data c).2
  else if path = "/events" then .sse_stream
  else .not_found

/-- The whole connection handler on one request: parse the request line;
on parse failure close without a response (none); otherwise respond
according to the path token alone. -/
def conn_handler_response (request : String) (c : cached_data_t) :
    Option http_response :=
  match sscanf3 request with
  | none => none
  | some (_, path, _) => some (route_response path c)

/-- A GET request for /json. -/
def req_get_json : String := "GET /json HTTP/1.1\r\nHost: localhost\r\n\r\n"

/-- A POST request for /json. -/
def req_post_json : String := "POST /json HTTP/1.1\r\nHost: localhost\r\n\r\n"

/-- A DELETE request for /json with an arbitrary version token. -/
def req_delete_json : String := "DELETE /json FOO/9\r\n\r\n"

/-- A sample with ax = 1 and all other components zero. -/
def s_ax1 : mpu6050_sample_float_t := ⟨1, 0, 0, 0, 0, 0, 0⟩

/-- A run of 17 distinct samples, distinguishable by their ax field. -/
def l17 : List mpu6050_sample_float_t :=
  (List.range 17).map (fun k => ⟨(k + 1 : ℚ), 0, 0, 0, 0, 0, 0⟩)

/-- Two concrete publications used to instantiate the cache theorems. -/
def pubs2 : List (mpu6050_sample_float_t × mpu6050_sample_float_t) :=
  [(s_ax1, zero_sample), (zero_sample, s_ax1)]

/-- A configuration with limit 2, used to instantiate the admission
theorem. -/
def cfg2 : server_config_t := ⟨2, 5, 3737⟩

/-- An event sequence with three simultaneous connection attempts, one
release and one more attempt, against limit 2. -/
def evs5 : List server_event :=
  [.accept true, .accept true, .accept true, .handler_exit, .accept true]

theorem producer_run_append (l : List mpu6050_sample_float_t)
    (s : mpu6050_sample_float_t) :
    producer_run (l ++ [s]) = producer_write (producer_run l) s := by
  simp [producer_run, List.foldl_append]

theorem producer_run_inv (l : List mpu6050_sample_float_t) :
    (producer_run l).buffer.length = 16 ∧
    (producer_run l).write_index = l.length % 16 ∧
    (producer_run l).count = min l.length 16 ∧
    (∀ k : Nat, l.length - 16 ≤ k → k < l.length →
        (producer_run l).buffer[k % 16]? = l[k]?) ∧
    ((producer_run l).buffer.take (producer_run l).count).Perm
      (l.drop (l.length - 16)) ∧
    (producer_run l).average =
      buffer_average (producer_run l).buffer (producer_run l).count := by
  induction l using List.reverseRecOn with
  | nil =>
    refine ⟨by decide, by decide, by decide, ?_, by decide, by decide⟩
    intro k _ hk
    simp at hk
  | append_singleton l s ih =>
    obtain ⟨hlen, hwi, hcnt, hpos, hperm, _⟩ := ih
    rw [producer_run_append]
    set st := producer_run l with hst
    set N := l.length with hN
    have hmod : N % 16 < 16 := Nat.mod_lt _ (by omega)
    have hbuf1 : (producer_write st s).buffer = st.buffer.set (N % 16) s := by
      simp only [producer_write, hwi]
    have hlen1 : (producer_write st s).buffer.length = 16 := by
      rw [hbuf1, List.length_set, hlen]
    have hwi1 : (producer_write st s).write_index = (N + 1) % 16 := by
      simp only [producer_write, hwi, BUFFER_SIZE]
      omega
    have hcnt1 : (producer_write st s).count = min (N + 1) 16 := by
      simp only [producer_write, hcnt, BUFFER_SIZE]
      split <;> omega
    have hlenapp : (l ++ [s]).length = N + 1 := by simp
    refine ⟨hlen1, by rw [hwi1, hlenapp], by rw [hcnt1, hlenapp], ?_, ?_, ?_⟩
    · -- positions of the most recent samples
      intro k hk1 hk2
      rw [hlenapp] at hk1 hk2
      rw [hbuf1]
      rcases Nat.lt_or_ge k N with hkN | hkN
      · have hne : N % 16 ≠ k % 16 := by omega
        rw [List.getElem?_set_ne hne, hpos k (by omega) hkN,
          List.getElem?_append]
        simp [hkN]
      · have hkeq : k = N := by omega
        subst hkeq
        rw [List.getElem?_set_self (by rw [hlen]; exact hmod)]
        exact (List.getElem?_concat_length l s).symm
    · -- the valid region is a permutation of the most recent samples
      rw [hbuf1, hcnt1, hlenapp]
      rcases Nat.lt_or_ge N 16 with hNlt | hNge
      · -- buffer not yet full
        have hiN : N % 16 = N := Nat.mod_eq_of_lt hNlt
        have hmin1 : min (N + 1) 16 = N + 1 := by omega
        have hminN : min N 16 = N := by omega
        have hset : st.buffer.set (N % 16) s =
            st.buffer.take N ++ s :: st.buffer.drop (N + 1) := by
          rw [List.set_eq_take_append_cons_drop, hiN, if_pos (by omega)]
        have htake : (st.buffer.set (N % 16) s).take (N + 1) =
            st.buffer.take N ++ [s] := by
          rw [hset, List.take_append_eq_append_take]
          have hlt : (st.buffer.take N).length = N := by
            rw [List.length_take]
            omega
          rw [List.take_of_length_le (by omega), hlt]
          simp
        rw [hmin1, htake]
        have hd0 : N + 1 - 16 = 0 := by omega
        have hd0l : N - 16 = 0 := by omega
        rw [hd0, List.drop_zero]
        rw [hcnt, hminN, hd0l, List.drop_zero] at hperm
        exact hperm.append_right [s]
      · -- buffer full: the written slot held the evicted oldest sample
        have hmin1 : min (N + 1) 16 = 16 := by omega
        have hminN : min N 16 = 16 := by omega
        set i := N % 16 with hi
        have hilen : i < st.buffer.length := by rw [hlen]; exact hmod
        have htake1 : (st.buffer.set i s).take 16 = st.buffer.set i s := by
          apply List.take_of_length_le
          rw [List.length_set, hlen]
        have htake0 : st.buffer.take 16 = st.buffer := by
          apply List.take_of_length_le
          rw [hlen]
        rw [hmin1, htake1]
        rw [hcnt, hminN, htake0] at hperm
        have hN16 : N - 16 < l.length := by omega
        have hold : st.buffer[i]? = some l[N - 16] := by
          have hp := hpos (N - 16) (by omega) (by omega)
          have hmodeq : (N - 16) % 16 = i := by omega
          rw [hmodeq] at hp
          rw [hp, List.getElem?_eq_getElem hN16]
        have holdel : st.buffer[i] = l[N - 16] := by
          have h2 := List.getElem?_eq_getElem hilen
          rw [hold] at h2
          exact (Option.some.inj h2).symm
        have hdecomp : st.buffer =
            st.buffer.take i ++ l[N - 16] :: st.buffer.drop (i + 1) := by
          conv_lhs => rw [← List.take_append_drop i st.buffer]
          rw [List.drop_eq_getElem_cons hilen, holdel]
        have hset : st.buffer.set i s =
            st.buffer.take i ++ s :: st.buffer.drop (i + 1) := by
          rw [List.set_eq_take_append_cons_drop, if_pos hilen]
        have hconsl : l.drop (N - 16) =
            l[N - 16] :: l.drop (N - 16 + 1) :=
          List.drop_eq_getElem_cons hN16
        have hA : (l[N - 16] :: (st.buffer.take i ++ st.buffer.drop (i + 1))).Perm
            st.buffer := by
          conv_rhs => rw [hdecomp]
          exact List.perm_middle.symm
        have hB : (l[N - 16] :: (st.buffer.take i ++ st.buffer.drop (i + 1))).Perm
            (l[N - 16] :: l.drop (N - 16 + 1)) := by
          refine hA.trans (hperm.trans ?_)
          rw [hconsl]
        have hrest : (st.buffer.take i ++ st.buffer.drop (i + 1)).Perm
            (l.drop (N - 16 + 1)) := hB.cons_inv
        have hdropapp : (l ++ [s]).drop (N + 1 - 16) =
            l.drop (N + 1 - 16) ++ [s] :=
          List.drop_append_of_le_length (by omega)
        have hdropidx : N + 1 - 16 = N - 16 + 1 := by omega
        rw [hdropapp, hdropidx, hset]
        refine List.perm_middle.trans ?_
        refine (hrest.cons s).trans ?_
        exact (List.perm_append_singleton s _).symm
    · rfl

theorem foldl_sample_add (l : List mpu6050_sample_float_t)
    (z : mpu6050_sample_float_t) :
    l.foldl sample_add z =
      ⟨z.ax + (l.map (·.ax)).sum, z.ay + (l.map (·.ay)).sum,
       z.az + (l.map (·.az)).sum, z.gx + (l.map (·.gx)).sum,
       z.gy + (l.map (·.gy)).sum, z.gz + (l.map (·.gz)).sum,
       z.temp + (l.map (·.temp)).sum⟩ := by
  induction l generalizing z with
  | nil => simp
  | cons a t ih => simp [sample_add, ih, add_assoc]

theorem buffer_average_eq_mean (buf : List mpu6050_sample_float_t)
    (count : Nat) (hc : 0 < count) (hlen : count ≤ buf.length) :
    buffer_average buf count = sample_mean (buf.take count) := by
  have hlt : (buf.take count).length = count := by
    rw [List.length_take]
    omega
  simp only [buffer_average, foldl_sample_add, sample_mean, sample_div,
    if_pos hc, hlt, zero_sample]
  norm_num

theorem sample_mean_perm {l1 l2 : List mpu6050_sample_float_t}
    (h : l1.Perm l2) : sample_mean l1 = sample_mean l2 := by
  simp only [sample_mean, h.length_eq,
    (h.map (·.ax)).sum_eq, (h.map (·.ay)).sum_eq, (h.map (·.az)).sum_eq,
    (h.map (·.gx)).sum_eq, (h.map (·.gy)).sum_eq, (h.map (·.gz)).sum_eq,
    (h.map (·.temp)).sum_eq]

/-- Claim C1: after any sequence of N producer writes, the buffer count is
min(N, C) with C = BUFFER_SIZE; each of the min(N, C) most recent samples
sits in the ring slot given by its arrival index modulo C (arrival
order); and the valid region of the buffer holds exactly those most
recent samples, so once full each write overwrites the oldest entry (in
particular write C+1 lands in slot 0, evicting the first sample). -/
theorem producer_ring_buffer_spec (l : List mpu6050_sample_float_t) :
    (producer_run l).count = min l.length BUFFER_SIZE ∧
    (∀ k : Nat, l.length - BUFFER_SIZE ≤ k → k < l.length →
        (producer_run l).buffer[k % BUFFER_SIZE]? = l[k]?) ∧
    ((producer_run l).buffer.take (producer_run l).count).Perm
      (l.drop (l.length - BUFFER_SIZE)) := by
  obtain ⟨_, _, h3, h4, h5, _⟩ := producer_run_inv l
  exact ⟨h3, h4, h5⟩


/-- Witness for C1 at a concrete 17-write run: the count saturates at 16,
slot 0 holds the 17th sample (the first one was evicted by write 17),
and slot 1 still holds the 2nd sample. -/
theorem producer_ring_buffer_spec_witness :
    (l17.length - BUFFER_SIZE ≤ 16 ∧ 16 < l17.length) ∧
    (l17.length - BUFFER_SIZE ≤ 1 ∧ 1 < l17.length) ∧
    (producer_run l17).count = min l17.length BUFFER_SIZE ∧
    (producer_run l17).buffer[16 % BUFFER_SIZE]? = l17[16]? ∧
    (producer_run l17).buffer[1 % BUFFER_SIZE]? = l17[1]? :=
  ⟨⟨by decide, by decide⟩, ⟨by decide, by decide⟩,
   (producer_ring_buffer_spec l17).1,
   (producer_ring_buffer_spec l17).2.1 16 (by decide) (by decide),
   (producer_ring_buffer_spec l17).2.1 1 (by decide) (by decide)⟩

/-- Claim C2: after every producer write the shared Average equals the
componentwise arithmetic mean of exactly the count currently valid
buffer entries, which are in turn the min(N, C) most recent samples;
floats are modelled as exact rationals. -/
theorem producer_average_spec (l : List mpu6050_sample_float_t)
    (h : l ≠ []) :
    (producer_run l).average =
      sample_mean ((producer_run l).buffer.take (producer_run l).count) ∧
    (producer_run l).average =
      sample_mean (l.drop (l.length - BUFFER_SIZE)) := by
  obtain ⟨h1, _, h3, _, h5, h6⟩ := producer_run_inv l
  have hpos : 0 < (producer_run l).count := by
    rw [h3]
    have : 0 < l.length := List.length_pos.mpr h
    omega
  have hle : (producer_run l).count ≤ (producer_run l).buffer.length := by
    rw [h3, h1]
    omega
  have hmean := buffer_average_eq_mean _ _ hpos hle
  refine ⟨h6.trans hmean, ?_⟩
  rw [h6, hmean]
  exact sample_mean_perm h5

/-- Witness for C2: after the 17-write run the average is the mean of the
16 retained samples 2..17, whose ax mean is 19/2. -/
theorem producer_average_spec_witness :
    l17 ≠ [] ∧ (producer_run l17).average =
      sample_mean (l17.drop (l17.length - BUFFER_SIZE)) ∧
    (producer_run l17).average.ax = 19 / 2 :=
  ⟨by decide, (producer_average_spec l17 (by decide)).2,
   by with_unfolding_all decide⟩


/-- Claim C3 (failing-input evaluation): after one producer write of a
sample with ax = 1 into a fresh segment, the shared average field has
ax = 1, but the reader thread copies buffer[BUFFER_SIZE - 1] — still
zero — and publishes it as the cache average, so the cache average
differs from the shared average at copy time. -/
theorem reader_publishes_slot_not_average :
    (producer_run [s_ax1]).average = s_ax1 ∧
    reader_copied_average (producer_run [s_ax1]) = zero_sample ∧
    reader_copied_average (producer_run [s_ax1]) ≠ (producer_run [s_ax1]).average ∧
    (data_reader_iteration true s_ax1 (producer_run [s_ax1])
        init_cached_data).average ≠ (producer_run [s_ax1]).average := by
  refine ⟨by with_unfolding_all decide, by with_unfolding_all decide,
    by with_unfolding_all decide, ?_⟩
  show (cache_publish init_cached_data
      (s_ax1, reader_copied_average (producer_run [s_ax1]))).average ≠ _
  simp only [cache_publish]
  with_unfolding_all decide

theorem cache_foldl_version
    (pubs : List (mpu6050_sample_float_t × mpu6050_sample_float_t))
    (c : cached_data_t) :
    (pubs.foldl cache_publish c).version = c.version + pubs.length := by
  induction pubs generalizing c with
  | nil => simp
  | cons p t ih =>
    simp only [List.foldl_cons, ih, cache_publish, List.length_cons]
    omega

theorem cache_after_version
    (pubs : List (mpu6050_sample_float_t × mpu6050_sample_float_t)) :
    (cache_after pubs).version = pubs.length := by
  simp [cache_after, cache_foldl_version, init_cached_data]

theorem cache_after_append
    (l : List (mpu6050_sample_float_t × mpu6050_sample_float_t))
    (p : mpu6050_sample_float_t × mpu6050_sample_float_t) :
    cache_after (l ++ [p]) = cache_publish (cache_after l) p := by
  simp [cache_after, List.foldl_append]

theorem cache_after_take_pair
    (pubs : List (mpu6050_sample_float_t × mpu6050_sample_float_t))
    (k : Nat) (hk0 : 0 < k) (hk : k ≤ pubs.length) :
    some (get_cached_data (cache_after (pubs.take k))) = pubs[k - 1]? := by
  obtain ⟨m, rfl⟩ : ∃ m, k = m + 1 := ⟨k - 1, by omega⟩
  have hm : m < pubs.length := by omega
  have htk : pubs.take (m + 1) = pubs.take m ++ [pubs[m]] := by
    rw [List.take_succ, List.getElem?_eq_getElem hm]
    rfl
  rw [htk, cache_after_append]
  simp only [get_cached_data, cache_publish]
  rw [List.getElem?_eq_getElem (by omega : m + 1 - 1 < pubs.length)]
  simp

/-- Claim C4: with cache states modelled as the sequence of atomic
publications, the version after k publications is exactly k (so versions
strictly increase across publications); any observer of the state at
version k sees precisely the pair stored by the k-th publication (no
torn pair); and wait_for_new_data invoked with last_version at most the
current version returns either last_version unchanged (timeout or stop,
with the old data) or a strictly larger version together with the pair
published at that version. -/
theorem cache_version_consistency
    (pubs : List (mpu6050_sample_float_t × mpu6050_sample_float_t))
    (k lv : Nat) (hk : k ≤ pubs.length) (hlv : lv ≤ k) :
    (cache_after (pubs.take k)).version = k ∧
    (0 < k → some (get_cached_data (cache_after (pubs.take k))) = pubs[k - 1]?) ∧
    (∀ j : Nat, k < j → j ≤ pubs.length →
        (cache_after (pubs.take k)).version < (cache_after (pubs.take j)).version) ∧
    ((wait_for_new_data (cache_after (pubs.take k))).1 = lv ∧ lv = k ∨
     lv < (wait_for_new_data (cache_after (pubs.take k))).1 ∧
       some (wait_for_new_data (cache_after (pubs.take k))).2 =
         pubs[(wait_for_new_data (cache_after (pubs.take k))).1 - 1]?) := by
  have hver : ∀ j : Nat, j ≤ pubs.length →
      (cache_after (pubs.take j)).version = j := by
    intro j hj
    rw [cache_after_version, List.length_take]
    omega
  refine ⟨hver k hk, fun hk0 => cache_after_take_pair pubs k hk0 hk, ?_, ?_⟩
  · intro j hkj hj
    rw [hver k hk, hver j hj]
    exact hkj
  · rcases Nat.eq_or_lt_of_le hlv with heq | hlt
    · left
      subst heq
      exact ⟨by simp [wait_for_new_data, hver lv hk], rfl⟩
    · right
      have hk0 : 0 < k := by omega
      refine ⟨by simp [wait_for_new_data, hver k hk, hlt], ?_⟩
      show some (get_cached_data (cache_after (pubs.take k))) = _
      rw [cache_after_take_pair pubs k hk0 hk]
      congr 1
      simp [wait_for_new_data, hver k hk]


/-- Witness for C4 at two concrete publications, observed at version 2
after a wait that started from version 1. -/
theorem cache_version_consistency_witness :
    (2 ≤ pubs2.length ∧ 1 ≤ 2) ∧
    (cache_after (pubs2.take 2)).version = 2 ∧
    (1 < (wait_for_new_data (cache_after (pubs2.take 2))).1 ∧
       some (wait_for_new_data (cache_after (pubs2.take 2))).2 =
         pubs2[(wait_for_new_data (cache_after (pubs2.take 2))).1 - 1]?) :=
  ⟨⟨by decide, by decide⟩,
   (cache_version_consistency pubs2 2 1 (by decide) (by decide)).1,
   by
    rcases (cache_version_consistency pubs2 2 1 (by decide) (by decide)).2.2.2 with
      ⟨h1, h2⟩ | h
    · exact absurd h2 (by decide)
    · exact h⟩

theorem acceptor_step_le (cfg : server_config_t)
    (hK : 0 < cfg.max_connnections) (a : Nat)
    (ha : (a : Int) ≤ cfg.max_connnections) (e : server_event) :
    ((acceptor_step cfg a e : Nat) : Int) ≤ cfg.max_connnections := by
  cases e with
  | accept ok =>
    simp only [acceptor_step]
    by_cases hd : accept_decision cfg a = true
    · rw [if_pos hd]
      simp only [accept_decision] at hd
      split at hd
      · exact absurd hd (by simp)
      · split at hd
        · exact absurd hd (by simp)
        · cases ok
          · simpa using ha
          · rename_i hnot _
            push_neg at hnot
            have := hnot hK
            push_cast
            omega
    · rw [if_neg hd]
      exact ha
  | handler_exit =>
    simp only [acceptor_step]
    omega

/-- Claim C5: the active-connections counter never exceeds a positive
limit K over any event sequence; a zero limit refuses every connection;
a connection arriving at or above the limit is rejected with the counter
unchanged; an admitted connection increments the counter before the
thread spawn and a pthread_create failure releases the reserved slot in
the same step; every handler exit decrements exactly once; and from a
full counter, one handler exit enables exactly one new admission, which
returns the counter to the limit. -/
theorem admission_control_spec (cfg : server_config_t)
    (evs : List server_event) :
    (0 < cfg.max_connnections →
        ((server_run cfg evs : Nat) : Int) ≤ cfg.max_connnections) ∧
    (cfg.max_connnections = 0 → ∀ a : Nat, accept_decision cfg a = false) ∧
    (∀ a : Nat, 0 < cfg.max_connnections → cfg.max_connnections ≤ (a : Int) →
        accept_decision cfg a = false ∧
        (∀ ok : Bool, acceptor_step cfg a (.accept ok) = a)) ∧
    (∀ a : Nat, accept_decision cfg a = true →
        acceptor_step cfg a (.accept true) = a + 1 ∧
        acceptor_step cfg a (.accept false) = a) ∧
    (∀ a : Nat, acceptor_step cfg a .handler_exit = a - 1) ∧
    (∀ a : Nat, 0 < cfg.max_connnections → (a : Int) = cfg.max_connnections →
        accept_decision cfg a = false ∧
        accept_decision cfg (acceptor_step cfg a .handler_exit) = true ∧
        acceptor_step cfg (acceptor_step cfg a .handler_exit) (.accept true) = a) := by
  refine ⟨?_, ?_, ?_, ?_, ?_, ?_⟩
  · intro hK
    suffices h : ∀ (es : List server_event) (a : Nat),
        (a : Int) ≤ cfg.max_connnections →
        ((es.foldl (acceptor_step cfg) a : Nat) : Int) ≤ cfg.max_connnections by
      exact h evs 0 (by omega)
    intro es
    induction es with
    | nil => intro a ha; simpa using ha
    | cons e t ih =>
      intro a ha
      exact ih _ (acceptor_step_le cfg hK a ha e)
  · intro h0 a
    simp [accept_decision, h0]
  · intro a hK hle
    have hdec : accept_decision cfg a = false := by
      simp only [accept_decision]
      rw [if_pos ⟨hK, hle⟩]
    refine ⟨hdec, fun ok => ?_⟩
    simp [acceptor_step, hdec]
  · intro a hdec
    constructor <;> simp [acceptor_step, hdec]
  · intro a
    rfl
  · intro a hK heq
    have ha1 : 1 ≤ a := by omega
    have hdec : accept_decision cfg a = false := by
      simp only [accept_decision]
      rw [if_pos ⟨hK, le_of_eq heq.symm⟩]
    have hstep : acceptor_step cfg a .handler_exit = a - 1 := rfl
    have hdec2 : accept_decision cfg (a - 1) = true := by
      simp only [accept_decision]
      rw [if_neg, if_neg]
      · omega
      · push_neg
        intro
        omega
    refine ⟨hdec, by rw [hstep]; exact hdec2, ?_⟩
    rw [hstep]
    simp only [acceptor_step, hdec2, if_pos]
    omega



/-- Witness for C5 at limit 2: the counter stays at most 2 over a burst
of three accepts, a release, and another accept; the decision at a full
counter is reject and at the released counter is admit. -/
theorem admission_control_spec_witness :
    (0 < cfg2.max_connnections ∧ (2 : Int) = cfg2.max_connnections) ∧
    ((server_run cfg2 evs5 : Nat) : Int) ≤ cfg2.max_connnections ∧
    (accept_decision cfg2 2 = false ∧
     accept_decision cfg2 (acceptor_step cfg2 2 .handler_exit) = true ∧
     acceptor_step cfg2 (acceptor_step cfg2 2 .handler_exit) (.accept true) = 2) :=
  ⟨⟨by decide, by decide⟩,
   (admission_control_spec cfg2 evs5).1 (by decide),
   (admission_control_spec cfg2 evs5).2.2.2.2.2 2 (by decide) (by decide)⟩

/-- Claim C6 counterexample: a store whose first line parses as
max_connections=7 but whose second line fails to scan makes the reload
return -2 while having already overwritten max_connnections in place, so
the prior Config is not retained unchanged in all fields. -/
theorem read_config_partial_overwrite :
    (read_config_from_file (some ⟨some 7, none, none⟩)
        DEFAULT_SERVER_CONFIG).1 = -2 ∧
    (read_config_from_file (some ⟨some 7, none, none⟩)
        DEFAULT_SERVER_CONFIG).2 ≠ DEFAULT_SERVER_CONFIG ∧
    (read_config_from_file (some ⟨some 7, none, none⟩)
        DEFAULT_SERVER_CONFIG).2 = ⟨7, 5, 3737⟩ := by
  refine ⟨rfl, ?_, rfl⟩
  decide

/-- Claim C6 as amended: when the store cannot be opened the prior Config
is retained unchanged in all fields; when it opens but a scan fails
partway, exactly the fields scanned before the failure (a prefix of
max_connections, backlog, port) are overwritten in place and the
remaining fields are retained; a full scan overwrites all three. -/
theorem read_config_failure_fields (file : Option config_scan)
    (cfg : server_config_t) :
    (file = none → read_config_from_file file cfg = (-1, cfg)) ∧
    (∀ s : config_scan, file = some s → s.l1 = none →
        read_config_from_file file cfg = (-2, cfg)) ∧
    (∀ (s : config_scan) (v1 : Int), file = some s → s.l1 = some v1 →
        s.l2 = none →
        read_config_from_file file cfg =
          (-2, { cfg with max_connnections := v1 })) ∧
    (∀ (s : config_scan) (v1 v2 : Int), file = some s → s.l1 = some v1 →
        s.l2 = some v2 → s.l3 = none →
        read_config_from_file file cfg =
          (-2, ⟨v1, v2, cfg.port⟩)) ∧
    (∀ (s : config_scan) (v1 v2 v3 : Int), file = some s → s.l1 = some v1 →
        s.l2 = some v2 → s.l3 = some v3 →
        read_config_from_file file cfg = (0, ⟨v1, v2, v3⟩)) := by
  refine ⟨?_, ?_, ?_, ?_, ?_⟩
  · rintro rfl
    rfl
  · rintro ⟨l1, l2, l3⟩ rfl h1
    subst h1
    rfl
  · rintro ⟨l1, l2, l3⟩ v1 rfl h1 h2
    subst h1
    subst h2
    rfl
  · rintro ⟨l1, l2, l3⟩ v1 v2 rfl h1 h2 h3
    subst h1
    subst h2
    subst h3
    rfl
  · rintro ⟨l1, l2, l3⟩ v1 v2 v3 rfl h1 h2 h3
    subst h1
    subst h2
    subst h3
    rfl

/-- Witness for the amended C6: the fopen-failure case retains the
default configuration, and the partial-parse case overwrites only the
first field. -/
theorem read_config_failure_fields_witness :
    read_config_from_file none DEFAULT_SERVER_CONFIG =
      (-1, DEFAULT_SERVER_CONFIG) ∧
    read_config_from_file (some ⟨some 7, none, none⟩) DEFAULT_SERVER_CONFIG =
      (-2, { DEFAULT_SERVER_CONFIG with max_connnections := 7 }) :=
  ⟨(read_config_failure_fields none DEFAULT_SERVER_CONFIG).1 rfl,
   (read_config_failure_fields (some ⟨some 7, none, none⟩)
       DEFAULT_SERVER_CONFIG).2.2.1 ⟨some 7, none, none⟩ 7 rfl rfl rfl⟩

/-- Claim C7 counterexample: starting from a state where both named OS
objects exist, the producer shutdown sequence leaves both existing, so
it is not the case that the segment and semaphore no longer exist after
the producer exits. -/
theorem producer_shutdown_objects_remain :
    ¬ ((producer_shutdown ⟨true, true, true, true, true⟩).shm_exists = false ∧
       (producer_shutdown ⟨true, true, true, true, true⟩).sem_exists = false) := by
  decide

/-- Claim C7 as amended: on shutdown the producer releases its handles
(sem_close, munmap, close) but never unlinks: the shared-memory object
and the semaphore exist afterwards exactly as before (their removal is
left to the external launch script). -/
theorem producer_shutdown_releases_handles_only (st : os_state) :
    (producer_shutdown st).shm_exists = st.shm_exists ∧
    (producer_shutdown st).sem_exists = st.sem_exists ∧
    (producer_shutdown st).sem_handle_open = false ∧
    (producer_shutdown st).shm_mapped = false ∧
    (producer_shutdown st).shm_fd_open = false := by
  cases st
  refine ⟨rfl, rfl, rfl, rfl, rfl⟩

/-- Claim C8: every reader-thread iteration with the segment attached
increments the cache version by exactly one — including when the copied
pair is identical to the pair already cached — and an iteration without
the segment leaves the cache unchanged. -/
theorem reader_iteration_version_increment (cur : mpu6050_sample_float_t)
    (sh : shared_data_t) (c : cached_data_t) :
    (data_reader_iteration true cur sh c).version = c.version + 1 ∧
    ((cur, reader_copied_average sh) = get_cached_data c →
        (data_reader_iteration true cur sh c).version = c.version + 1) ∧
    data_reader_iteration false cur sh c = c := by
  exact ⟨rfl, fun _ => rfl, rfl⟩

/-- Witness for C8: publishing the exact pair already cached still
advances the version from 0 to 1. -/
theorem reader_iteration_version_increment_witness :
    ((zero_sample, reader_copied_average init_shared_data) =
        get_cached_data init_cached_data) ∧
    (data_reader_iteration true zero_sample init_shared_data
        init_cached_data).version = init_cached_data.version + 1 :=
  ⟨by decide,
   (reader_iteration_version_increment zero_sample init_shared_data
       init_cached_data).2.1 (by decide)⟩

/-- Claim C9: for requests whose line scans into three tokens, the
response is a function of the path token alone — any two requests whose
scanned second token coincide get identical responses for the same cache
state, the method and version tokens being ignored; and that response is
exactly the one selected by the routing chain on the path. -/
theorem routing_ignores_method_and_version (r1 r2 : String)
    (c : cached_data_t) (m1 p1 v1 m2 p2 v2 : String)
    (h1 : sscanf3 r1 = some (m1, p1, v1))
    (h2 : sscanf3 r2 = some (m2, p2, v2)) (hp : p1 = p2) :
    conn_handler_response r1 c = conn_handler_response r2 c ∧
    conn_handler_response r1 c = some (route_response p1 c) := by
  subst hp
  constructor
  · simp only [conn_handler_response, h1, h2]
  · simp only [conn_handler_response, h1]

/-- Witness for C9: a POST and a DELETE to /json scan to the same path
token as a GET and receive the identical 200 JSON response. -/
theorem routing_ignores_method_and_version_witness :
    sscanf3 req_get_json = some ("GET", "/json", "HTTP/1.1") ∧
    sscanf3 req_post_json = some ("POST", "/json", "HTTP/1.1") ∧
    sscanf3 req_delete_json = some ("DELETE", "/json", "FOO/9") ∧
    conn_handler_response req_post_json init_cached_data =
      conn_handler_response req_get_json init_cached_data ∧
    conn_handler_response req_delete_json init_cached_data =
      conn_handler_response req_get_json init_cached_data ∧
    conn_handler_response req_get_json init_cached_data =
      some (.ok_json zero_sample zero_sample) ∧
    status_code (.ok_json zero_sample zero_sample) = 200 :=
  ⟨by decide, by decide, by decide,
   (routing_ignores_method_and_version req_post_json req_get_json
      init_cached_data "POST" "/json" "HTTP/1.1" "GET" "/json" "HTTP/1.1"
      (by decide) (by decide) rfl).1,
   (routing_ignores_method_and_version req_delete_json req_get_json
      init_cached_data "DELETE" "/json" "FOO/9" "GET" "/json" "HTTP/1.1"
      (by decide) (by decide) rfl).1,
   by decide, rfl⟩

/-- Claim C10: before the first publication the cache holds version 0 and
the all-zero pair, get_cached_data returns that zero pair, and a GET
/json answered from this state is a 200 response with status ok whose
sample and average components are all zero — identical to the response
produced after a publication of genuinely zero readings. -/
theorem initial_cache_zero_json :
    init_cached_data.version = 0 ∧
    get_cached_data init_cached_data = (zero_sample, zero_sample) ∧
    conn_handler_response req_get_json init_cached_data =
      some (.ok_json zero_sample zero_sample) ∧
    status_code (.ok_json zero_sample zero_sample) = 200 ∧
    conn_handler_response req_get_json
        (cache_after [(zero_sample, zero_sample)]) =
      conn_handler_response req_get_json init_cached_data := by
  refine ⟨rfl, rfl, by decide, rfl, by decide⟩
